import Mathlib

/-!
Verification of the Stretch rock-paper-scissors game
(`src/rock_paper_scissors.py`) against its specification.

The pure parts of the program (the outcome evaluator `determine_winner`
and the pose table `Guestures.get_joint_values`) are embedded directly as
Lean functions.  The effectful choreography (`make_gesture`,
`move_arm_animation`, `play_round`, the `play` session command) is
embedded as trace-producing functions: every externally visible action
(joint command, command flush, sleep, speech, console echo, thread
fork/join, teardown step) becomes an `Event`, and each Python function
becomes a Lean function returning the list of events it performs, with
the lift's commanded position threaded through as explicit state.
Python floats are exact decimal literals here, so they are modelled by
rationals.  Sources of nondeterminism and the external collaborators are
oracles: the random move draw per round, the validated player input per
round, the per-utterance speech-delivery status, an injected actuator
fault, and an injected keyboard interrupt.
-/

/-- The three joint targets of a pose (`JointValues` dataclass). -/
structure JointValues where
  gripper : ℚ
  wrist_yaw : ℚ
  wrist_roll : ℚ
deriving DecidableEq, Repr

/-- The `Guestures` enum (sic): reset, rock, paper, scissors. -/
inductive Guestures where
  | RESET
  | ROCK
  | PAPER
  | SCISSORS
deriving DecidableEq, Repr

/-- The enum member's string value (`Guestures.ROCK.value = 'rock'` etc.). -/
def Guestures.value : Guestures → String
  | .RESET => "reset"
  | .ROCK => "rock"
  | .PAPER => "paper"
  | .SCISSORS => "scissors"

/-- Enum lookup by member name, `Guestures[name]`; `none` models the
`KeyError` raised on an unknown name. -/
def Guestures.fromName (name : String) : Option Guestures :=
  if name = "RESET" then some .RESET
  else if name = "ROCK" then some .ROCK
  else if name = "PAPER" then some .PAPER
  else if name = "SCISSORS" then some .SCISSORS
  else none

/-- `Guestures.get_joint_values`: the fixed pose table (source lines 36-44). -/
def Guestures.get_joint_values : Guestures → JointValues
  | .RESET => ⟨100.0, 0.0, 0.0⟩
  | .ROCK => ⟨0.0, 0.0, 0.0⟩
  | .PAPER => ⟨0.0, 1.57, 0.0⟩
  | .SCISSORS => ⟨100.0, 0.0, 1.57⟩

/-- `self.valid_moves` from `RockPaperScissors.__init__`. -/
def valid_moves : List String := ["rock", "paper", "scissors"]

/-- `RockPaperScissors.determine_winner` (source lines 113-123), on
arbitrary strings exactly as the Python code receives them. -/
def determine_winner (stretch_choice player_choice : String) : String :=
  if stretch_choice = player_choice then
    "It\x27s a tie!"
  else if (stretch_choice = "rock" ∧ player_choice = "scissors") ∨
          (stretch_choice = "paper" ∧ player_choice = "rock") ∨
          (stretch_choice = "scissors" ∧ player_choice = "paper") then
    "Stretch wins!"
  else
    "You win!"

/-- Python `str.upper()`: uppercase every character.  (`String.toUpper`
exists but does not reduce in the kernel, so the character-list map is
spelled out.) -/
def strUpper (s : String) : String := ⟨s.data.map Char.toUpper⟩

/-- `random.choice(self.valid_moves)`: the library draws a uniform index
below `len(valid_moves)`; the drawn index is modelled as `k % 3` for an
oracle-supplied `k`. -/
def random_choice (k : ℕ) : String :=
  valid_moves.getD (k % valid_moves.length) ""

/-- The standard beats-relation on move strings, as the spec states it. -/
def beats (a b : String) : Prop :=
  (a = "rock" ∧ b = "scissors") ∨ (a = "paper" ∧ b = "rock") ∨
    (a = "scissors" ∧ b = "paper")

instance : DecidablePred fun p : String × String => beats p.1 p.2 := by
  intro p
  unfold beats
  infer_instance

instance (a b : String) : Decidable (beats a b) := by
  unfold beats
  infer_instance

/-- Externally visible actions of the program, in program order. -/
inductive Event where
  | wristYawMoveTo (v : ℚ)
  | wristRollMoveTo (v : ℚ)
  | gripperMoveTo (v : ℚ)
  | pushCommand
  | waitCommand
  | sleep (t : ℚ)
  | liftMoveBy (d : ℚ)
  | liftMoveTo (h : ℚ)
  | say (text : String) (delivered : Bool)
  | threadStartSpeak (word : String)
  | threadJoin (word : String)
  | echo (s : String)
  | prompt (ans : String)
  | spawnSoundPlay
  | rclpyInit
  | robotStartup
  | robotStop
  | rclpyShutdown
  | killSoundPlay
deriving DecidableEq, Repr

/-- Lift state: the settled position reported by `lift.status['pos']`,
plus the staged target not yet flushed by `push_command`. -/
structure LiftState where
  pos : ℚ
  pending : Option ℚ
deriving DecidableEq, Repr

/-- `lift.move_to(h)`: stage an absolute target. -/
def lift_move_to (h : ℚ) (s : LiftState) : LiftState :=
  { s with pending := some h }

/-- `lift.move_by(d)`: stage a target relative to the current position. -/
def lift_move_by (d : ℚ) (s : LiftState) : LiftState :=
  { s with pending := some (s.pos + d) }

/-- `push_command` as it affects the lift: flush the staged target. -/
def push_lift (s : LiftState) : LiftState :=
  { pos := s.pending.getD s.pos, pending := none }

/-- `RockPaperScissors.speak` (source lines 71-75): one `say` to the
speech collaborator, then a sleep proportional to text length.
Modelled from the spec: the collaborator (`SoundClient.say`, external to
the repository) is best-effort and never raises; `deliv` reports, per
utterance, whether the collaborator actually delivered it. -/
def speak (deliv : String → Bool) (text : String) : List Event :=
  [Event.say text (deliv text), Event.sleep ((text.length : ℚ) * (1 / 10))]

/-- `RockPaperScissors.move_arm_animation` (source lines 77-98): record
the current lift height, bob up, speak the word on a spawned thread,
return to the recorded height, join the thread. -/
def move_arm_animation (word : String) (s : LiftState) :
    List Event × LiftState :=
  let current_height := s.pos
  let s1 := push_lift (lift_move_by (1 / 10) s)
  let s2 := push_lift (lift_move_to current_height s1)
  ([Event.liftMoveBy (1 / 10), Event.pushCommand,
    Event.threadStartSpeak word,
    Event.sleep (1 / 2),
    Event.liftMoveTo current_height, Event.pushCommand,
    Event.sleep (1 / 2),
    Event.threadJoin word], s2)

/-- The countdown loop of `play_round` (source lines 134-136): echo each
word and run its arm animation, in the order supplied. -/
def run_countdown (words : List String) (s : LiftState) :
    List Event × LiftState :=
  match words with
  | [] => ([], s)
  | w :: ws =>
      let step := move_arm_animation w s
      let rest := run_countdown ws step.2
      (Event.echo (w ++ "...") :: step.1 ++ rest.1, rest.2)

/-- `RockPaperScissors.make_gesture` (source lines 100-111): stage both
wrist targets, flush once, settle; then gripper target, flush, settle. -/
def make_gesture (gesture : Guestures) : List Event :=
  let joint_values := gesture.get_joint_values
  [Event.wristYawMoveTo joint_values.wrist_yaw,
   Event.wristRollMoveTo joint_values.wrist_roll,
   Event.pushCommand, Event.sleep 1,
   Event.gripperMoveTo joint_values.gripper,
   Event.pushCommand, Event.sleep 1]

/-- `make_gesture` when the first `push_command` raises an
`ActuatorFault`: only the two wrist targets were staged. -/
def make_gesture_faulted (gesture : Guestures) : List Event :=
  let joint_values := gesture.get_joint_values
  [Event.wristYawMoveTo joint_values.wrist_yaw,
   Event.wristRollMoveTo joint_values.wrist_roll]

/-- Everything `play_round` (source lines 125-146) does before the
gesture commit: announcement, countdown, "Shoot!". -/
def play_round_pre (deliv : String → Bool) (s : LiftState) :
    List Event × LiftState :=
  let cd := run_countdown ["Rock", "Paper", "Scissors"] s
  (speak deliv "Let\x27s play!" ++ [Event.echo "\nGet ready...", Event.sleep 1]
     ++ cd.1 ++ speak deliv "Shoot!" ++ [Event.echo "Shoot!\n"], cd.2)

/-- `RockPaperScissors.play_round` (source lines 125-146): draw the
move first, run the countdown theatrics, commit the gesture
(`Guestures[stretch_choice.upper()]`; the impossible `KeyError` branch
contributes no events), announce, and return the drawn move. -/
def play_round (deliv : String → Bool) (k : ℕ) (s : LiftState) :
    List Event × LiftState × String :=
  let stretch_choice := random_choice k
  let pre := play_round_pre deliv s
  let gtr := (Guestures.fromName (strUpper stretch_choice)).elim [] make_gesture
  (pre.1 ++ gtr ++ [Event.echo ("stretch played: " ++ stretch_choice)]
     ++ speak deliv ("I choose " ++ stretch_choice),
   pre.2, stretch_choice)

/-- `play_round` truncated at an `ActuatorFault` raised by the first
`push_command` of its gesture commit. -/
def play_round_faulted (deliv : String → Bool) (k : ℕ) (s : LiftState) :
    List Event :=
  let stretch_choice := random_choice k
  (play_round_pre deliv s).1
    ++ (Guestures.fromName (strUpper stretch_choice)).elim [] make_gesture_faulted

/-- The exceptions the `play` command can see escaping the round loop. -/
inductive Exc where
  | actuatorFault
  | keyboardInterrupt
deriving DecidableEq, Repr

/-- The external inputs of one session: per-utterance speech delivery,
per-round random draw index, per-round validated player choice, an
optional round whose gesture commit raises `ActuatorFault`, and an
optional round at whose start a `KeyboardInterrupt` arrives. -/
structure Oracles where
  deliv : String → Bool
  ks : ℕ → ℕ
  pc : ℕ → String
  faultAt : Option ℕ
  intrAt : Option ℕ

/-- `range(1, rounds + 1)`: the round numbers of a session. -/
def roundNums (rounds : ℕ) : List ℕ :=
  List.range' 1 rounds

/-- The loop body over the remaining round numbers `js` inside the
`try` of the `play` command (source lines 175-197): per round, lift to
the pre-round height and flush, wait, commit Reset, announce the round
number when the session has several rounds, play the round, prompt the
player, announce the result.  An injected interrupt or fault stops the
loop with the corresponding exception. -/
def run_rounds (o : Oracles) (rounds : ℕ) (js : List ℕ) (s : LiftState) :
    List Event × Except Exc LiftState :=
  match js with
  | [] => ([], Except.ok s)
  | j :: rest =>
      if o.intrAt = some j then
        ([], Except.error Exc.keyboardInterrupt)
      else
        let s1 := push_lift (lift_move_to (1 / 2) s)
        let pre := [Event.liftMoveTo (1 / 2), Event.pushCommand,
          Event.waitCommand]
        let tg := make_gesture Guestures.RESET
        let ann := if rounds > 1 then
            Event.echo ("\nRound " ++ toString j) ::
              speak o.deliv ("Round " ++ toString j)
          else []
        if o.faultAt = some j then
          (pre ++ tg ++ ann ++ play_round_faulted o.deliv (o.ks j) s1,
           Except.error Exc.actuatorFault)
        else
          let r := play_round o.deliv (o.ks j) s1
          let result := determine_winner r.2.2 (o.pc j)
          let rest' := run_rounds o rounds rest r.2.1
          (pre ++ tg ++ ann ++ r.1 ++ [Event.prompt (o.pc j)]
             ++ [Event.echo ("\n" ++ result)] ++ speak o.deliv result
             ++ rest'.1,
           rest'.2)

/-- What the `play` command does before its `try` block and as its first
two `try` statements (source lines 165-173): spawn the sound-play node,
construct the game object (ROS init and a settling sleep), start the
robot, greet. -/
def prologue_tr (deliv : String → Bool) : List Event :=
  [Event.spawnSoundPlay, Event.sleep 2, Event.rclpyInit, Event.sleep 1,
   Event.robotStartup]
    ++ speak deliv "Hello! I\x27m ready to play Rock Paper Scissors!"

/-- `RockPaperScissors.cleanup` (source lines 66-69). -/
def cleanup_tr : List Event :=
  [Event.robotStop, Event.rclpyShutdown]

/-- The `play` command (source lines 163-209): prologue, the round loop,
the per-exit-path epilogue (thanks on normal completion of a multi-round
session, farewell on interrupt, nothing extra on an uncaught fault), and
the unconditional `finally` teardown. -/
def play_cmd (o : Oracles) (rounds : ℕ) (s0 : LiftState) : List Event :=
  let body := run_rounds o rounds (roundNums rounds) s0
  let handled := match body.2 with
    | Except.ok _ =>
        body.1 ++ (if rounds > 1 then speak o.deliv "Thanks for playing!"
                   else [])
    | Except.error Exc.keyboardInterrupt =>
        body.1 ++ Event.echo "\nGame interrupted by user" ::
          speak o.deliv "Game interrupted. Goodbye!"
    | Except.error Exc.actuatorFault => body.1
  prologue_tr o.deliv ++ handled ++ cleanup_tr ++ [Event.killSoundPlay]

/-- The trace of one complete, fault-free round cycle `j` of the loop in
`play` — the shape `run_rounds` is proved to take cycle by cycle. -/
def cycle_trace (o : Oracles) (rounds j : ℕ) : List Event :=
  [Event.liftMoveTo (1 / 2), Event.pushCommand, Event.waitCommand]
    ++ make_gesture Guestures.RESET
    ++ (if rounds > 1 then
          Event.echo ("\nRound " ++ toString j) ::
            speak o.deliv ("Round " ++ toString j)
        else [])
    ++ (play_round o.deliv (o.ks j) ⟨1 / 2, none⟩).1
    ++ [Event.prompt (o.pc j)]
    ++ [Event.echo ("\n" ++ determine_winner (random_choice (o.ks j)) (o.pc j))]
    ++ speak o.deliv (determine_winner (random_choice (o.ks j)) (o.pc j))

/-- The trace of cycle `j` when `play_round`'s gesture commit faults. -/
def cycle_trace_faulted (o : Oracles) (rounds j : ℕ) : List Event :=
  [Event.liftMoveTo (1 / 2), Event.pushCommand, Event.waitCommand]
    ++ make_gesture Guestures.RESET
    ++ (if rounds > 1 then
          Event.echo ("\nRound " ++ toString j) ::
            speak o.deliv ("Round " ++ toString j)
        else [])
    ++ play_round_faulted o.deliv (o.ks j) ⟨1 / 2, none⟩

/-- The utterance handed to the speech collaborator by an event, if any. -/
def sayText? : Event → Option String
  | .say t _ => some t
  | _ => none

/-- The utterances actually handed to the speech collaborator. -/
def saysOf (tr : List Event) : List String :=
  tr.filterMap sayText?

/-- Speech-thread activity of an event: `(true, w)` marks the fork
speaking `w`, `(false, w)` the matching join. -/
def threadEv? : Event → Option (Bool × String)
  | .threadStartSpeak w => some (true, w)
  | .threadJoin w => some (false, w)
  | _ => none

/-- Speech-thread activity of a trace, in order. -/
def threadEvents (tr : List Event) : List (Bool × String) :=
  tr.filterMap threadEv?

/-- Recognise the once-per-cycle `wait_command` call. -/
def isWait : Event → Bool
  | .waitCommand => true
  | _ => false

/-- How many round cycles a trace started. -/
def waitCount (tr : List Event) : ℕ :=
  tr.countP isWait

/-- Recognise teardown actions. -/
def isTd : Event → Bool
  | .robotStop => true
  | .rclpyShutdown => true
  | .killSoundPlay => true
  | _ => false

/-- The teardown actions of a trace, in order. -/
def teardownEvents (tr : List Event) : List Event :=
  tr.filter isTd

/-- Erase the delivery status of an utterance event. -/
def scrubEv : Event → Event
  | .say t _ => .say t true
  | e => e

/-- Erase the delivery status of every utterance of a trace. -/
def scrubDeliv (tr : List Event) : List Event :=
  tr.map scrubEv

/-- The gripper target issued by an event, if any. -/
def gripTarget? : Event → Option ℚ
  | .gripperMoveTo v => some v
  | _ => none

/-- The gripper targets issued in a trace. -/
def gripTargets (tr : List Event) : List ℚ :=
  tr.filterMap gripTarget?

/-- The wrist-yaw target issued by an event, if any. -/
def wristYawTarget? : Event → Option ℚ
  | .wristYawMoveTo v => some v
  | _ => none

/-- The wrist-yaw targets issued in a trace. -/
def wristYawTargets (tr : List Event) : List ℚ :=
  tr.filterMap wristYawTarget?

/-- The wrist-roll target issued by an event, if any. -/
def wristRollTarget? : Event → Option ℚ
  | .wristRollMoveTo v => some v
  | _ => none

/-- The wrist-roll targets issued in a trace. -/
def wristRollTargets (tr : List Event) : List ℚ :=
  tr.filterMap wristRollTarget?

/-- The lift command of an event: `inl d` a relative move by `d`,
`inr h` an absolute move to `h`. -/
def liftCmd? : Event → Option (ℚ ⊕ ℚ)
  | .liftMoveBy d => some (Sum.inl d)
  | .liftMoveTo h => some (Sum.inr h)
  | _ => none

/-- The lift commands of a trace, in order. -/
def liftCmds (tr : List Event) : List (ℚ ⊕ ℚ) :=
  tr.filterMap liftCmd?

/-- A delivery oracle for concrete session runs: everything delivered. -/
def delivAll : String → Bool := fun _ => true

/-- Concrete session inputs: all speech delivered, the robot always
draws index 0 (`rock`), the player always reports `paper`, no injected
fault, no interrupt. -/
def oTest : Oracles :=
  { deliv := delivAll, ks := fun _ => 0, pc := fun _ => "paper",
    faultAt := none, intrAt := none }

/-- `oTest` with an `ActuatorFault` injected in round 1's gesture commit. -/
def oFault1 : Oracles :=
  { oTest with faultAt := some 1 }

/-- `oTest` with a `KeyboardInterrupt` arriving after round 1 completes,
at the start of round 2's cycle. -/
def oIntr2 : Oracles :=
  { oTest with intrAt := some 2 }

/-- A concrete initial lift state for session runs. -/
def sTest : LiftState := ⟨3 / 10, none⟩

theorem run_countdown_pos (ws : List String) (s : LiftState) :
    (run_countdown ws s).2.pos = s.pos := by
  induction ws generalizing s with
  | nil => rfl
  | cons w ws ih => exact ih ⟨s.pos, none⟩

/-- C2: the pose lookup is a total function on the four gestures and
returns exactly the fixed pose-table values: Reset opens the gripper to
100 with both wrist joints at 0, Rock closes everything to 0, Paper
yaws the wrist to 1.57, Scissors opens the gripper to 100 and rolls the
wrist to 1.57. -/
theorem get_joint_values_spec :
    Guestures.get_joint_values .RESET = ⟨100.0, 0.0, 0.0⟩
    ∧ Guestures.get_joint_values .ROCK = ⟨0.0, 0.0, 0.0⟩
    ∧ Guestures.get_joint_values .PAPER = ⟨0.0, 1.57, 0.0⟩
    ∧ Guestures.get_joint_values .SCISSORS = ⟨100.0, 0.0, 1.57⟩ :=
  ⟨rfl, rfl, rfl, rfl⟩

/-- C1: over the nine pairs of valid moves, `determine_winner` returns
the tie message exactly on equal moves, the robot-win message exactly on
the three beats-relation pairs, and the player-win message in the
remaining cases; the nine cases split 3 ties, 3 robot wins, 3 player
wins. -/
theorem determine_winner_cases (a b : String)
    (ha : a ∈ valid_moves) (hb : b ∈ valid_moves) :
    (determine_winner a b = "It\x27s a tie!" ↔ a = b)
    ∧ (determine_winner a b = "Stretch wins!" ↔ beats a b)
    ∧ (determine_winner a b = "You win!" ↔ a ≠ b ∧ ¬ beats a b)
    ∧ ((valid_moves.flatMap fun x => valid_moves.map fun y => (x, y)).countP
        (fun p => decide (determine_winner p.1 p.2 = "It\x27s a tie!")) = 3)
    ∧ ((valid_moves.flatMap fun x => valid_moves.map fun y => (x, y)).countP
        (fun p => decide (determine_winner p.1 p.2 = "Stretch wins!")) = 3)
    ∧ ((valid_moves.flatMap fun x => valid_moves.map fun y => (x, y)).countP
        (fun p => decide (determine_winner p.1 p.2 = "You win!")) = 3) := by
  have ha' : a = "rock" ∨ a = "paper" ∨ a = "scissors" := by
    simpa [valid_moves] using ha
  have hb' : b = "rock" ∨ b = "paper" ∨ b = "scissors" := by
    simpa [valid_moves] using hb
  rcases ha' with rfl | rfl | rfl <;> rcases hb' with rfl | rfl | rfl <;>
    exact ⟨by decide, by decide, by decide, by decide, by decide, by decide⟩

/-- Witness for C1 at the concrete pair (rock, scissors): a robot win. -/
theorem determine_winner_cases_witness :
    determine_winner "rock" "scissors" = "Stretch wins!" :=
  (determine_winner_cases "rock" "scissors" (by decide) (by decide)).2.1.mpr
    (by decide)

/-- C10: `determine_winner` is total on arbitrary strings: any two equal
strings tie, and any unequal pair outside the three robot-winning pairs
yields the player-win message. -/
theorem determine_winner_total (a b : String) :
    (a = b → determine_winner a b = "It\x27s a tie!")
    ∧ (a ≠ b → ¬ beats a b → determine_winner a b = "You win!") := by
  constructor
  · intro h
    simp [determine_winner, h]
  · intro h hnb
    unfold determine_winner
    rw [if_neg h, if_neg]
    exact hnb

/-- Witness for C10: unrecognized strings tie when equal, and an
unrecognized or losing unequal pair is a player win. -/
theorem determine_winner_total_witness :
    determine_winner "lizard" "lizard" = "It\x27s a tie!"
    ∧ determine_winner "lizard" "spock" = "You win!"
    ∧ determine_winner "rock" "paper" = "You win!" :=
  ⟨(determine_winner_total "lizard" "lizard").1 rfl,
   (determine_winner_total "lizard" "spock").2 (by decide) (by decide),
   (determine_winner_total "rock" "paper").2 (by decide) (by decide)⟩

/-- C3: for every gesture, `make_gesture` stages both wrist targets and
flushes them as one batch followed by a settle sleep, and only then
issues, flushes and settles the gripper target; exactly two flushes
occur, so the wrist-orientation commit strictly precedes the gripper
commit. -/
theorem make_gesture_order (g : Guestures) :
    make_gesture g =
      ([Event.wristYawMoveTo g.get_joint_values.wrist_yaw,
        Event.wristRollMoveTo g.get_joint_values.wrist_roll,
        Event.pushCommand, Event.sleep 1]
        ++ [Event.gripperMoveTo g.get_joint_values.gripper,
            Event.pushCommand, Event.sleep 1])
    ∧ (make_gesture g).countP
        (fun e => match e with | Event.pushCommand => true | _ => false) = 2 :=
  ⟨rfl, rfl⟩

/-- C9: each lift bob records the height current at call start, commands
a relative up-move and then an absolute return to exactly the recorded
height, and ends with the lift at the pre-call height with nothing
staged; repeated calls produce identical traces, and a whole countdown
likewise returns the lift to its pre-call height. -/
theorem move_arm_animation_restores (w : String) (s : LiftState) :
    move_arm_animation w s =
      ([Event.liftMoveBy (1 / 10), Event.pushCommand,
        Event.threadStartSpeak w, Event.sleep (1 / 2),
        Event.liftMoveTo s.pos, Event.pushCommand, Event.sleep (1 / 2),
        Event.threadJoin w], ⟨s.pos, none⟩)
    ∧ liftCmds (move_arm_animation w s).1 = [Sum.inl (1 / 10), Sum.inr s.pos]
    ∧ (move_arm_animation w (move_arm_animation w s).2).1 =
        (move_arm_animation w s).1
    ∧ ∀ ws : List String, (run_countdown ws s).2.pos = s.pos :=
  ⟨rfl, rfl, rfl, fun ws => run_countdown_pos ws s⟩

theorem threadEvents_append (a b : List Event) :
    threadEvents (a ++ b) = threadEvents a ++ threadEvents b := by
  simp [threadEvents]

theorem threadEvents_run_countdown (ws : List String) (s : LiftState) :
    threadEvents (run_countdown ws s).1
      = ws.flatMap fun w => [(true, w), (false, w)] := by
  induction ws generalizing s with
  | nil => rfl
  | cons w ws ih =>
      have h := ih ⟨s.pos, none⟩
      simp only [threadEvents] at h ⊢
      simp [run_countdown, move_arm_animation, List.filterMap_append,
        threadEv?]
      exact h

theorem threadEvents_opt_gesture (og : Option Guestures) :
    threadEvents (og.elim [] make_gesture) = [] := by
  rcases og with _ | g <;> rfl

theorem threadEvents_speak (d : String → Bool) (t : String) :
    threadEvents (speak d t) = [] := rfl

theorem threadEvents_nil : threadEvents [] = [] := rfl

theorem threadEvents_cons (e : Event) (l : List Event) :
    threadEvents (e :: l) = (threadEv? e).toList ++ threadEvents l := by
  rcases he : threadEv? e with _ | p <;>
    simp [threadEvents, List.filterMap_cons, he]

theorem threadEvents_play_round (d : String → Bool) (k : ℕ) (s : LiftState) :
    threadEvents (play_round d k s).1
      = [(true, "Rock"), (false, "Rock"), (true, "Paper"), (false, "Paper"),
         (true, "Scissors"), (false, "Scissors")] := by
  have h := threadEvents_run_countdown ["Rock", "Paper", "Scissors"] s
  simp [play_round, play_round_pre, speak, threadEvents_append,
    threadEvents_cons, threadEvents_nil, threadEvents_opt_gesture,
    threadEv?, h]

theorem saysOf_append (a b : List Event) :
    saysOf (a ++ b) = saysOf a ++ saysOf b := by
  simp [saysOf]

theorem saysOf_nil : saysOf [] = [] := rfl

theorem saysOf_cons (e : Event) (l : List Event) :
    saysOf (e :: l) = (sayText? e).toList ++ saysOf l := by
  rcases he : sayText? e with _ | t <;>
    simp [saysOf, List.filterMap_cons, he]

theorem saysOf_run_countdown (ws : List String) (s : LiftState) :
    saysOf (run_countdown ws s).1 = [] := by
  induction ws generalizing s with
  | nil => rfl
  | cons w ws ih =>
      have hstep : (run_countdown (w :: ws) s).1
          = Event.echo (w ++ "...") :: ((move_arm_animation w s).1
            ++ (run_countdown ws ⟨s.pos, none⟩).1) := rfl
      rw [hstep, saysOf_cons, saysOf_append, ih ⟨s.pos, none⟩]
      rfl

theorem saysOf_opt_gesture (og : Option Guestures) :
    saysOf (og.elim [] make_gesture) = [] := by
  rcases og with _ | g <;> rfl

theorem random_choice_mem (k : ℕ) :
    random_choice k = "rock" ∨ random_choice k = "paper"
      ∨ random_choice k = "scissors" := by
  have h3 : k % 3 = 0 ∨ k % 3 = 1 ∨ k % 3 = 2 := by omega
  unfold random_choice
  have hl : valid_moves.length = 3 := rfl
  rw [hl]
  rcases h3 with h | h | h <;> rw [h] <;> decide

theorem fromName_random_choice (k : ℕ) :
    ∃ g : Guestures,
      Guestures.fromName (strUpper (random_choice k)) = some g
      ∧ g.value = random_choice k := by
  rcases random_choice_mem k with h | h | h <;> rw [h]
  · exact ⟨.ROCK, rfl, rfl⟩
  · exact ⟨.PAPER, rfl, rfl⟩
  · exact ⟨.SCISSORS, rfl, rfl⟩

/-- C4: the countdown processes any supplied word list in exactly its
order — no reordering, skipping or deduplication — forking one speech
task per word and joining it before the next word's step begins; in a
round this yields the fork/join pairs for Rock, Paper, Scissors in that
literal order. -/
theorem countdown_order (ws : List String) (s : LiftState)
    (d : String → Bool) (k : ℕ) (s' : LiftState) :
    threadEvents (run_countdown ws s).1
      = (ws.flatMap fun w => [(true, w), (false, w)])
    ∧ threadEvents (play_round d k s').1
      = [(true, "Rock"), (false, "Rock"), (true, "Paper"), (false, "Paper"),
         (true, "Scissors"), (false, "Scissors")] := by
  exact ⟨threadEvents_run_countdown ws s, threadEvents_play_round d k s'⟩

/-- C5: the robot's move is drawn from the three valid moves before any
countdown theatrics, with each move hit by exactly one uniform index
residue; the returned, announced and gestured move is exactly the drawn
one; the countdown theatrics do not depend on the drawn move and the
drawn move does not depend on the lift state the theatrics run in. -/
theorem play_round_move_fixed (d : String → Bool) (k : ℕ) (s : LiftState) :
    (play_round d k s).2.2 = random_choice k
    ∧ random_choice k ∈ valid_moves
    ∧ saysOf (play_round d k s).1
        = ["Let\x27s play!", "Shoot!", "I choose " ++ random_choice k]
    ∧ (∃ g : Guestures,
        Guestures.fromName (strUpper (random_choice k)) = some g
        ∧ g.value = random_choice k
        ∧ (play_round d k s).1
            = (play_round_pre d s).1 ++ make_gesture g
              ++ [Event.echo ("stretch played: " ++ random_choice k)]
              ++ speak d ("I choose " ++ random_choice k))
    ∧ (∀ k' : ℕ, threadEvents (play_round d k' s).1
         = threadEvents (play_round d k s).1)
    ∧ (∀ s' : LiftState, (play_round d k s').2.2 = (play_round d k s).2.2)
    ∧ ∀ m ∈ valid_moves,
        ((List.range 3).countP fun i => decide (random_choice i = m)) = 1 := by
  refine ⟨rfl, ?_, ?_, ?_, ?_, fun s' => rfl, ?_⟩
  · rcases random_choice_mem k with h | h | h <;> rw [h] <;> decide
  · have h := saysOf_run_countdown ["Rock", "Paper", "Scissors"] s
    simp [play_round, play_round_pre, speak, saysOf_append, saysOf_cons,
      saysOf_nil, saysOf_opt_gesture, sayText?, h]
  · obtain ⟨g, hg, hv⟩ := fromName_random_choice k
    refine ⟨g, hg, hv, ?_⟩
    simp [play_round, hg]
  · intro k'
    rw [threadEvents_play_round, threadEvents_play_round]
  · intro m hm
    have hm' : m = "rock" ∨ m = "paper" ∨ m = "scissors" := by
      simpa [valid_moves] using hm
    rcases hm' with rfl | rfl | rfl <;> decide

/-- Witness for C5: with draw index 0 the robot plays rock and each
valid move is drawn for exactly one of the three index residues. -/
theorem play_round_move_fixed_witness :
    (play_round delivAll 0 sTest).2.2 = "rock"
    ∧ ((List.range 3).countP fun i => decide (random_choice i = "paper"))
        = 1 :=
  ⟨((play_round_move_fixed delivAll 0 sTest).1).trans (by decide),
   (play_round_move_fixed delivAll 0 sTest).2.2.2.2.2.2 "paper" (by decide)⟩



theorem scrubDeliv_nil : scrubDeliv [] = [] := rfl

theorem scrubDeliv_cons (e : Event) (l : List Event) :
    scrubDeliv (e :: l) = scrubEv e :: scrubDeliv l := rfl

theorem scrubDeliv_append (a b : List Event) :
    scrubDeliv (a ++ b) = scrubDeliv a ++ scrubDeliv b := by
  simp [scrubDeliv]

theorem scrub_play_round (d1 d2 : String → Bool) (k : ℕ) (s : LiftState) :
    scrubDeliv (play_round d1 k s).1 = scrubDeliv (play_round d2 k s).1 := by
  simp [play_round, play_round_pre, speak, scrubDeliv_append, scrubDeliv_cons,
    scrubEv]

theorem scrub_cycle (o : Oracles) (d1 d2 : String → Bool) (rounds j : ℕ) :
    scrubDeliv (cycle_trace { o with deliv := d1 } rounds j)
      = scrubDeliv (cycle_trace { o with deliv := d2 } rounds j) := by
  have hp := scrub_play_round d1 d2 (o.ks j) ⟨1 / 2, none⟩
  simp only [one_div] at hp
  by_cases hR : rounds > 1 <;>
    simp [cycle_trace, hR, speak, scrubDeliv_append, scrubDeliv_cons,
      scrubDeliv_nil, scrubEv, hp]

/-- C8: a speech-collaborator failure inside `speak` is absorbed: `speak`
still emits its utterance attempt and its settling sleep whatever the
delivery outcome, and the whole round — `play_round`'s trace, its
returned state and move, and the full round cycle including the result
announcement — is identical up to delivery flags for any two delivery
oracles. -/
theorem speak_failure_absorbed (t : String) (d1 d2 : String → Bool) (k : ℕ)
    (s : LiftState) (o : Oracles) (rounds j : ℕ) :
    speak d1 t = [Event.say t (d1 t), Event.sleep ((t.length : ℚ) * (1 / 10))]
    ∧ scrubDeliv (play_round d1 k s).1 = scrubDeliv (play_round d2 k s).1
    ∧ (play_round d1 k s).2 = (play_round d2 k s).2
    ∧ scrubDeliv (cycle_trace { o with deliv := d1 } rounds j)
        = scrubDeliv (cycle_trace { o with deliv := d2 } rounds j) :=
  ⟨rfl, scrub_play_round d1 d2 k s, rfl, scrub_cycle o d1 d2 rounds j⟩

theorem waitCount_nil : waitCount [] = 0 := rfl

theorem waitCount_append (a b : List Event) :
    waitCount (a ++ b) = waitCount a + waitCount b := by
  simp [waitCount]

theorem waitCount_cons (e : Event) (l : List Event) :
    waitCount (e :: l) = waitCount l + if isWait e then 1 else 0 := by
  simp [waitCount, List.countP_cons]

theorem waitCount_speak (d : String → Bool) (t : String) :
    waitCount (speak d t) = 0 := rfl

theorem waitCount_run_countdown (ws : List String) (s : LiftState) :
    waitCount (run_countdown ws s).1 = 0 := by
  induction ws generalizing s with
  | nil => rfl
  | cons w ws ih =>
      have hstep : (run_countdown (w :: ws) s).1
          = Event.echo (w ++ "...") :: ((move_arm_animation w s).1
            ++ (run_countdown ws ⟨s.pos, none⟩).1) := rfl
      rw [hstep, waitCount_cons, waitCount_append, ih ⟨s.pos, none⟩]
      rfl

theorem waitCount_make_gesture (g : Guestures) :
    waitCount (make_gesture g) = 0 := rfl

theorem waitCount_opt_gesture (og : Option Guestures) :
    waitCount (og.elim [] make_gesture) = 0 := by
  rcases og with _ | g <;> rfl

theorem waitCount_opt_gesture_faulted (og : Option Guestures) :
    waitCount (og.elim [] make_gesture_faulted) = 0 := by
  rcases og with _ | g <;> rfl

theorem waitCount_play_round (d : String → Bool) (k : ℕ) (s : LiftState) :
    waitCount (play_round d k s).1 = 0 := by
  simp [play_round, play_round_pre, speak, waitCount_append, waitCount_cons,
    waitCount_nil, isWait, waitCount_opt_gesture, waitCount_run_countdown]

theorem waitCount_play_round_faulted (d : String → Bool) (k : ℕ)
    (s : LiftState) :
    waitCount (play_round_faulted d k s) = 0 := by
  simp [play_round_faulted, play_round_pre, speak, waitCount_append,
    waitCount_cons, waitCount_nil, isWait, waitCount_opt_gesture_faulted,
    waitCount_run_countdown]

theorem waitCount_cycle (o : Oracles) (R j : ℕ) :
    waitCount (cycle_trace o R j) = 1 := by
  by_cases hR : R > 1 <;>
    simp [cycle_trace, hR, speak, waitCount_append, waitCount_cons,
      waitCount_nil, isWait, waitCount_play_round, waitCount_make_gesture]

theorem waitCount_cycle_faulted (o : Oracles) (R j : ℕ) :
    waitCount (cycle_trace_faulted o R j) = 1 := by
  by_cases hR : R > 1 <;>
    simp [cycle_trace_faulted, hR, speak, waitCount_append, waitCount_cons,
      waitCount_nil, isWait, waitCount_play_round_faulted,
      waitCount_make_gesture]

theorem waitCount_flatMap_cycles (l : List ℕ) (f : ℕ → List Event)
    (h : ∀ j, waitCount (f j) = 1) :
    waitCount (l.flatMap f) = l.length := by
  induction l with
  | nil => rfl
  | cons j rest ih =>
      simp [List.flatMap_cons, waitCount_append, h, ih]
      omega

theorem teardownEvents_nil : teardownEvents [] = [] := rfl

theorem teardownEvents_cons (e : Event) (l : List Event) :
    teardownEvents (e :: l)
      = if isTd e then e :: teardownEvents l else teardownEvents l := by
  simp [teardownEvents, List.filter_cons]

theorem teardownEvents_append (a b : List Event) :
    teardownEvents (a ++ b) = teardownEvents a ++ teardownEvents b := by
  simp [teardownEvents]

theorem teardownEvents_speak (d : String → Bool) (t : String) :
    teardownEvents (speak d t) = [] := rfl

theorem teardownEvents_make_gesture (g : Guestures) :
    teardownEvents (make_gesture g) = [] := rfl

theorem teardownEvents_run_countdown (ws : List String) (s : LiftState) :
    teardownEvents (run_countdown ws s).1 = [] := by
  induction ws generalizing s with
  | nil => rfl
  | cons w ws ih =>
      have hstep : (run_countdown (w :: ws) s).1
          = Event.echo (w ++ "...") :: ((move_arm_animation w s).1
            ++ (run_countdown ws ⟨s.pos, none⟩).1) := rfl
      rw [hstep, teardownEvents_cons, teardownEvents_append, ih ⟨s.pos, none⟩]
      rfl

theorem teardownEvents_opt_gesture (og : Option Guestures) :
    teardownEvents (og.elim [] make_gesture) = [] := by
  rcases og with _ | g <;> rfl

theorem teardownEvents_opt_gesture_faulted (og : Option Guestures) :
    teardownEvents (og.elim [] make_gesture_faulted) = [] := by
  rcases og with _ | g <;> rfl

theorem teardownEvents_play_round (d : String → Bool) (k : ℕ)
    (s : LiftState) :
    teardownEvents (play_round d k s).1 = [] := by
  simp [play_round, play_round_pre, speak, teardownEvents_append,
    teardownEvents_cons, teardownEvents_nil, isTd, teardownEvents_opt_gesture,
    teardownEvents_run_countdown]

theorem teardownEvents_play_round_faulted (d : String → Bool) (k : ℕ)
    (s : LiftState) :
    teardownEvents (play_round_faulted d k s) = [] := by
  simp [play_round_faulted, play_round_pre, speak, teardownEvents_append,
    teardownEvents_cons, teardownEvents_nil, isTd,
    teardownEvents_opt_gesture_faulted, teardownEvents_run_countdown]

theorem teardownEvents_run_rounds (o : Oracles) (R : ℕ) (js : List ℕ)
    (s : LiftState) :
    teardownEvents (run_rounds o R js s).1 = [] := by
  induction js generalizing s with
  | nil => rfl
  | cons j rest ih =>
      by_cases hI : o.intrAt = some j <;>
        by_cases hF : o.faultAt = some j <;>
        by_cases hR : R > 1 <;>
        simp [run_rounds, hI, hF, hR, speak, teardownEvents_append,
          teardownEvents_cons, teardownEvents_nil, isTd,
          teardownEvents_make_gesture, teardownEvents_play_round,
          teardownEvents_play_round_faulted, ih]

theorem push_lift_move_to (h : ℚ) (s : LiftState) :
    push_lift (lift_move_to h s) = ⟨h, none⟩ := rfl

theorem run_rounds_ok (o : Oracles) (R : ℕ) (hf : o.faultAt = none)
    (hi : o.intrAt = none) (js : List ℕ) (s : LiftState) :
    (run_rounds o R js s).1 = js.flatMap (cycle_trace o R)
    ∧ ∃ s', (run_rounds o R js s).2 = Except.ok s' := by
  induction js generalizing s with
  | nil => exact ⟨rfl, s, rfl⟩
  | cons j rest ih =>
      obtain ⟨h1, s', h2⟩ := ih (play_round o.deliv (o.ks j) ⟨1 / 2, none⟩).2.1
      simp only [one_div, play_round] at h1 h2
      refine ⟨?_, s', ?_⟩
      · simp [run_rounds, hi, hf, cycle_trace, List.flatMap_cons,
          push_lift_move_to, play_round, h1]
      · simp [run_rounds, hi, hf, push_lift_move_to, play_round, h2]

theorem run_rounds_fault (o : Oracles) (R k : ℕ) (hi : o.intrAt = none)
    (hf : o.faultAt = some k) (js1 js2 : List ℕ) (hk : k ∉ js1)
    (s : LiftState) :
    run_rounds o R (js1 ++ k :: js2) s
      = (js1.flatMap (cycle_trace o R) ++ cycle_trace_faulted o R k,
         Except.error Exc.actuatorFault) := by
  induction js1 generalizing s with
  | nil =>
      simp [run_rounds, hi, hf, cycle_trace_faulted, push_lift_move_to]
  | cons j js1 ih =>
      have hkj : ¬ (k = j) := fun h => hk (by simp [h])
      have hk' : k ∉ js1 := fun h => hk (by simp [h])
      simp [run_rounds, hi, hf, hkj, cycle_trace, List.flatMap_cons,
        push_lift_move_to, play_round, ih hk']

theorem run_rounds_intr (o : Oracles) (R k : ℕ) (hf : o.faultAt = none)
    (hi : o.intrAt = some k) (js1 js2 : List ℕ) (hk : k ∉ js1)
    (s : LiftState) :
    run_rounds o R (js1 ++ k :: js2) s
      = (js1.flatMap (cycle_trace o R), Except.error Exc.keyboardInterrupt) := by
  induction js1 generalizing s with
  | nil => simp [run_rounds, hi]
  | cons j js1 ih =>
      have hkj : ¬ (k = j) := fun h => hk (by simp [h])
      have hk' : k ∉ js1 := fun h => hk (by simp [h])
      simp [run_rounds, hi, hf, hkj, cycle_trace, List.flatMap_cons,
        push_lift_move_to, play_round, ih hk']

theorem roundNums_split (k N : ℕ) (h1 : 1 ≤ k) (h2 : k ≤ N) :
    roundNums N = roundNums (k - 1) ++ k :: List.range' (k + 1) (N - k) := by
  unfold roundNums
  rw [show k :: List.range' (k + 1) (N - k)
        = List.range' k (N - k + 1) from (List.range'_succ k (N - k) 1).symm]
  have h := List.range'_append 1 (k - 1) (N - k + 1) 1
  rw [show 1 + 1 * (k - 1) = k by omega] at h
  rw [show N - k + 1 + (k - 1) = N by omega] at h
  exact h.symm

theorem not_mem_roundNums_pred (k : ℕ) : k ∉ roundNums (k - 1) := by
  unfold roundNums
  intro h
  rw [List.mem_range'_1] at h
  omega

/-- C6: with no fault and no interruption, a session of N ≥ 1 rounds is
exactly the prologue, then the N reset-then-round cycles in order, then
the epilogue and teardown; exactly N cycles start, and every cycle
begins by moving the lift to the fixed pre-round height, flushing,
waiting, and committing the Reset gesture before any announcement or
countdown. -/
theorem session_cycles (o : Oracles) (N : ℕ) (s0 : LiftState)
    (_hN : 1 ≤ N) (hf : o.faultAt = none) (hi : o.intrAt = none) :
    play_cmd o N s0
      = prologue_tr o.deliv ++ (roundNums N).flatMap (cycle_trace o N)
        ++ (if N > 1 then speak o.deliv "Thanks for playing!" else [])
        ++ cleanup_tr ++ [Event.killSoundPlay]
    ∧ waitCount (play_cmd o N s0) = N
    ∧ ∀ j : ℕ, (cycle_trace o N j).take 10
        = [Event.liftMoveTo (1 / 2), Event.pushCommand, Event.waitCommand]
          ++ make_gesture .RESET := by
  obtain ⟨hb, s', hok⟩ := run_rounds_ok o N hf hi (roundNums N) s0
  have heq : play_cmd o N s0
      = prologue_tr o.deliv ++ (roundNums N).flatMap (cycle_trace o N)
        ++ (if N > 1 then speak o.deliv "Thanks for playing!" else [])
        ++ cleanup_tr ++ [Event.killSoundPlay] := by
    simp [play_cmd, hb, hok]
  refine ⟨heq, ?_, fun j => rfl⟩
  rw [heq]
  have hcyc := waitCount_flatMap_cycles (roundNums N) (cycle_trace o N)
    (waitCount_cycle o N)
  have hlen : (roundNums N).length = N := by
    simp [roundNums]
  rw [hlen] at hcyc
  by_cases hN1 : N > 1 <;>
    simp [hN1, waitCount_append, waitCount_cons, waitCount_nil, isWait,
      prologue_tr, cleanup_tr, speak, hcyc]

/-- Witness for C6: a clean two-round session starts exactly two cycles. -/
theorem session_cycles_witness :
    waitCount (play_cmd oTest 2 sTest) = 2 :=
  (session_cycles oTest 2 sTest (by decide) rfl rfl).2.1

theorem teardownEvents_play_cmd (o : Oracles) (N : ℕ) (s0 : LiftState) :
    teardownEvents (play_cmd o N s0)
      = [Event.robotStop, Event.rclpyShutdown, Event.killSoundPlay] := by
  have hb := teardownEvents_run_rounds o N (roundNums N) s0
  simp only [play_cmd]
  rcases hE : (run_rounds o N (roundNums N) s0).2 with e | s'
  · cases e <;>
      simp [hE, teardownEvents_append, teardownEvents_cons,
        teardownEvents_nil, isTd, hb, prologue_tr, cleanup_tr, speak]
  · by_cases hN : N > 1 <;>
      simp [hE, hN, teardownEvents_append, teardownEvents_cons,
        teardownEvents_nil, isTd, hb, prologue_tr, cleanup_tr, speak]

/-- C7: teardown — robot stop, ROS shutdown, sound-process kill — runs
exactly once whatever the exit path; a fault in round k's gesture commit
cuts the session to k-1 full cycles plus the truncated cycle k (aborting
rounds k+1..N) before teardown, and an interrupt at the start of round
k's cycle cuts it to k-1 full cycles plus the farewell before
teardown. -/
theorem teardown_once (o : Oracles) (N k : ℕ) (s0 : LiftState) :
    teardownEvents (play_cmd o N s0)
      = [Event.robotStop, Event.rclpyShutdown, Event.killSoundPlay]
    ∧ (o.intrAt = none → o.faultAt = some k → 1 ≤ k → k ≤ N →
        play_cmd o N s0
          = prologue_tr o.deliv
            ++ (roundNums (k - 1)).flatMap (cycle_trace o N)
            ++ cycle_trace_faulted o N k
            ++ cleanup_tr ++ [Event.killSoundPlay]
        ∧ waitCount (play_cmd o N s0) = k)
    ∧ (o.faultAt = none → o.intrAt = some k → 1 ≤ k → k ≤ N →
        play_cmd o N s0
          = prologue_tr o.deliv
            ++ (roundNums (k - 1)).flatMap (cycle_trace o N)
            ++ (Event.echo "\nGame interrupted by user"
                :: speak o.deliv "Game interrupted. Goodbye!")
            ++ cleanup_tr ++ [Event.killSoundPlay]
        ∧ waitCount (play_cmd o N s0) = k - 1) := by
  refine ⟨teardownEvents_play_cmd o N s0, ?_, ?_⟩
  · intro hi hf h1 h2
    have hrr := run_rounds_fault o N k hi hf (roundNums (k - 1))
      (List.range' (k + 1) (N - k)) (not_mem_roundNums_pred k) s0
    rw [← roundNums_split k N h1 h2] at hrr
    have heq : play_cmd o N s0
        = prologue_tr o.deliv
          ++ (roundNums (k - 1)).flatMap (cycle_trace o N)
          ++ cycle_trace_faulted o N k
          ++ cleanup_tr ++ [Event.killSoundPlay] := by
      simp [play_cmd, hrr]
    refine ⟨heq, ?_⟩
    rw [heq]
    have hcyc := waitCount_flatMap_cycles (roundNums (k - 1))
      (cycle_trace o N) (waitCount_cycle o N)
    have hlen : (roundNums (k - 1)).length = k - 1 := by
      simp [roundNums]
    rw [hlen] at hcyc
    simp [waitCount_append, waitCount_cons, waitCount_nil, isWait,
      prologue_tr, cleanup_tr, speak, hcyc, waitCount_cycle_faulted]
    omega
  · intro hf hi h1 h2
    have hrr := run_rounds_intr o N k hf hi (roundNums (k - 1))
      (List.range' (k + 1) (N - k)) (not_mem_roundNums_pred k) s0
    rw [← roundNums_split k N h1 h2] at hrr
    have heq : play_cmd o N s0
        = prologue_tr o.deliv
          ++ (roundNums (k - 1)).flatMap (cycle_trace o N)
          ++ (Event.echo "\nGame interrupted by user"
              :: speak o.deliv "Game interrupted. Goodbye!")
          ++ cleanup_tr ++ [Event.killSoundPlay] := by
      simp [play_cmd, hrr]
    refine ⟨heq, ?_⟩
    rw [heq]
    have hcyc := waitCount_flatMap_cycles (roundNums (k - 1))
      (cycle_trace o N) (waitCount_cycle o N)
    have hlen : (roundNums (k - 1)).length = k - 1 := by
      simp [roundNums]
    rw [hlen] at hcyc
    simp [waitCount_append, waitCount_cons, waitCount_nil, isWait,
      prologue_tr, cleanup_tr, speak, hcyc]

/-- Witness for C7: teardown runs exactly once on a clean one-round
session; a fault in round 1 of a three-round session starts exactly one
cycle; an interrupt arriving after round 1 of a three-round session
leaves exactly one full cycle. -/
theorem teardown_once_witness :
    teardownEvents (play_cmd oTest 1 sTest)
        = [Event.robotStop, Event.rclpyShutdown, Event.killSoundPlay]
    ∧ waitCount (play_cmd oFault1 3 sTest) = 1
    ∧ waitCount (play_cmd oIntr2 3 sTest) = 1 := by
  refine ⟨(teardown_once oTest 1 1 sTest).1, ?_, ?_⟩
  · exact ((teardown_once oFault1 3 1 sTest).2.1 rfl rfl (by decide)
      (by decide)).2
  · exact ((teardown_once oIntr2 3 2 sTest).2.2 rfl rfl (by decide)
      (by decide)).2
